import Mathlib

/-!
The S3 storage backend of `gb` (`s3/s3.go`).

A shallow embedding of `s3/s3.go`: the path scheme (`niceRootPath`, `formatPath`), the
upload session (`BeginBlobUpload`, `Writer`, `End`), the one-shot database backup upload,
the metadata fetcher, the lister and the section downloader.

Conventions of the embedding:

* a Go `string` is a sequence of bytes; it is embedded as a `List Char`, one `Char` per byte;
* a Go `[]byte` is a `List Byte` with `Byte = Fin 256`; a `nil` slice is `[]`;
* `int` and `int64` values are `Int` (no arithmetic here can overflow: only lengths are
  compared);
* a function that can `panic` returns `Except Panic _`;
* a function with effects also returns the list of effects it performed, in order
  (`Event`): log lines, creation of pipes/channels/goroutines, and requests to the store;
* the object store is an oracle (`Store`) answering the requests of one run;
* the `ETagCalculator` lives in another file of the package; the checksum it delivers for a
  byte stream is the field `Store.etag` of the environment.
-/

namespace Gb

/-- A Go `string`, one `Char` per byte. -/
abbrev GoString := List Char

/-- A Go `byte`. -/
abbrev Byte := Fin 256

/-- A Go `error` value, identified by its message. -/
abbrev Error := GoString

/-- The values this file panics with. -/
inductive Panic where
  /-- Raised by `panic(len(blobID))`. -/
  | int (n : Int)
  /-- Raised by `panic("...")`. -/
  | str (msg : GoString)
  /-- Raised by `panic(err)`. -/
  | err (e : Error)
  /-- The runtime error "slice bounds out of range" of an expression `s[lo:hi]`. -/
  | sliceBounds
  deriving DecidableEq, Repr

deriving instance DecidableEq for Except

/-- The Go slice expression `s[lo:hi]` on a string: it panics unless `0 ≤ lo ≤ hi ≤ len(s)`. -/
def slice (s : GoString) (lo hi : Int) : Except Panic GoString :=
  if 0 ≤ lo ∧ lo ≤ hi ∧ hi ≤ (s.length : Int) then
    .ok ((s.take hi.toNat).drop lo.toNat)
  else
    .error .sliceBounds

/-- Go `strings.HasSuffix`: `len(s) >= len(suffix) && s[len(s)-len(suffix):] == suffix`. -/
def strings.HasSuffix (s suffix : GoString) : Bool :=
  decide (s.length ≥ suffix.length) && (s.drop (s.length - suffix.length) == suffix)

/-- Go `strings.Contains`: whether `substr` occurs in `s` at some position. -/
def strings.Contains : GoString → GoString → Bool
  | [], substr => substr.isEmpty
  | c :: s, substr => substr.isPrefixOf (c :: s) || strings.Contains s substr

/-- The digit table of Go `encoding/hex`. -/
def hextable : GoString := "0123456789abcdef".toList

/-- Go `hex.EncodeToString`: each byte `v` yields `hextable[v>>4]` then `hextable[v&0x0f]`. -/
def hex.EncodeToString (src : List Byte) : GoString :=
  src.flatMap fun v => [hextable.getD (v.val >>> 4) '0', hextable.getD (v.val &&& 0x0f) '0']

/-- The receiver type `S3`. -/
structure S3 where
  StorageID : List Byte
  Bucket : GoString
  RootPath : GoString
  deriving DecidableEq, Repr

/-- The method `(*S3).GetID`. -/
def S3.GetID (remote : S3) : List Byte := remote.StorageID

/-- The method `(*S3).niceRootPath`. -/
def S3.niceRootPath (remote : S3) : GoString :=
  let path := remote.RootPath
  if path ≠ [] ∧ ¬ strings.HasSuffix path "/".toList then path ++ "/".toList else path

/-- The function `formatPath`. -/
def formatPath (blobID : List Byte) : Except Panic GoString :=
  if blobID.length ≠ 32 then
    .error (.int blobID.length)
  else do
    let h := hex.EncodeToString blobID
    let shard1 ← slice h 0 2
    let shard2 ← slice h 2 4
    pure (shard1 ++ "/".toList ++ shard2 ++ "/".toList ++ h)

/-- The record `storage_base.UploadedBlob`. -/
structure UploadedBlob where
  Path : GoString
  Checksum : GoString
  Size : Int
  deriving DecidableEq, Repr

/-- The record `s3manager.UploadOutput` (the field that is read). -/
structure UploadOutput where
  Location : GoString
  deriving DecidableEq, Repr

/-- The record `s3.HeadObjectOutput` (the fields that are read, dereferenced). -/
structure HeadObjectOutput where
  ETag : GoString
  ContentLength : Int
  deriving DecidableEq, Repr

/-- The record `s3.Object` of a listing (the fields that are read, dereferenced). -/
structure Object where
  Key : GoString
  ETag : GoString
  Size : Int
  deriving DecidableEq, Repr

/-- The record `s3.ListObjectsOutput`: one page of a listing. -/
structure ListObjectsOutput where
  Contents : List Object
  deriving DecidableEq, Repr

/-- The type `s3Result`: the pair `(result, err)` returned by `Uploader.Upload`, of which
`err` is set on failure and `result` on success. -/
abbrev s3Result := Except Error UploadOutput

/-- What `s3.go` takes from outside the file, for one run. -/
structure Env where
  /-- The package's `ETagCalculator`: the value delivered on `calc.Result` once the byte stream
  given here has been written to `calc.Writer` and the writer closed. -/
  etag : List Byte → GoString
  /-- The helper `utils.FormatHTTPRange`. -/
  FormatHTTPRange : Int → Int → GoString
  /-- The answer of `Uploader.Upload` for a bucket, a key and the bytes of the body. -/
  Upload : GoString → GoString → List Byte → s3Result
  /-- The answer of `HeadObject` for a bucket and a key. -/
  HeadObject : GoString → GoString → Except Error HeadObjectOutput
  /-- The answer of `GetObject` for a bucket, a key and a range: the bytes of `result.Body`. -/
  GetObject : GoString → GoString → GoString → Except Error (List Byte)
  /-- The answer of `ListObjectsPages` for a bucket and a key stem: the pages handed to the
  callback, each with its `lastPage` flag, and the error returned in the end. -/
  ListObjectsPages : GoString → GoString → List (ListObjectsOutput × Bool) × Option Error

/-- An argument of a `log.Println` call. -/
inductive LogArg where
  | str (s : GoString)
  | int (n : Int)
  | err (e : Error)
  deriving DecidableEq, Repr

/-- The effects performed by the functions of the file. -/
inductive Event where
  /-- A call of `log.Println`. -/
  | logPrintln (args : List LogArg)
  /-- A call of `io.Pipe()`. -/
  | ioPipe
  /-- The creation `make(chan s3Result)`. -/
  | makeChan
  /-- The statement `go func() ...`: the worker that runs `Uploader.Upload` on the read end of
  the pipe for this bucket and key. -/
  | goUpload (bucket key : GoString)
  /-- A call of `CreateETagCalculator()`. -/
  | createETagCalculator
  /-- A call of `calc.Writer.Write`. -/
  | calcWrite (p : List Byte)
  /-- A call of `calc.Writer.Close()`. -/
  | calcClose
  /-- A receive `<-calc.Result`. -/
  | calcResult
  /-- A call of `up.writer.Close()` on the write end of the pipe. -/
  | pipeClose
  /-- A receive `<-up.result` from the worker. -/
  | recvResult
  /-- A request `Uploader.Upload` with an in-memory body. -/
  | upload (bucket key : GoString) (body : List Byte)
  /-- A request `HeadObject`. -/
  | headObject (bucket key : GoString)
  /-- A request `GetObject` with a `Range`. -/
  | getObject (bucket key range : GoString)
  /-- A request `ListObjectsPages`. -/
  | listObjectsPages (bucket stem : GoString)
  deriving DecidableEq, Repr

/-- Whether an effect is a request to the object store. -/
def Event.isRequest : Event → Bool
  | .goUpload _ _ => true
  | .upload _ _ _ => true
  | .headObject _ _ => true
  | .getObject _ _ _ => true
  | .listObjectsPages _ _ => true
  | _ => false

/-- The function `fetchETagAndSize`. -/
def fetchETagAndSize (env : Env) (bucket path : GoString) :
    Except Panic (GoString × Int) × List Event :=
  let ev := [Event.headObject bucket path]
  match env.HeadObject bucket path with
  | .error e => (.error (.err e), ev)
  | .ok result =>
    match slice result.ETag 1 ((result.ETag.length : Int) - 1) with
    | .error p => (.error p, ev)
    | .ok etag => (.ok (etag, result.ContentLength), ev)

/-- The method `(*S3).Metadata`. -/
def S3.Metadata (env : Env) (remote : S3) (path : GoString) :
    Except Panic (GoString × Int) × List Event :=
  fetchETagAndSize env remote.Bucket path

/-- The type `s3Upload`. The field `calcWriter` stands for the field `calc` (a keyword
here): it holds the bytes written so far to `calc.Writer`; the field `writer` holds the bytes
written so far to the pipe; the channel `result` is read in `End`. -/
structure s3Upload where
  calcWriter : List Byte
  writer : List Byte
  path : GoString
  blobID : List Byte
  s3 : S3
  deriving DecidableEq, Repr

/-- The worker started by `BeginBlobUpload`: the value it sends on the channel `result`, and
its effects, once the bytes `body` have gone through the pipe. -/
def uploadWorker (env : Env) (bucket path : GoString) (body : List Byte) :
    s3Result × List Event :=
  match env.Upload bucket path body with
  | .error e => (.error e, [.logPrintln [.str "s3 error".toList, .err e]])
  | .ok result => (.ok result, [])

/-- The method `(*S3).BeginBlobUpload`. -/
def S3.BeginBlobUpload (remote : S3) (blobID : List Byte) :
    Except Panic s3Upload × List Event :=
  match formatPath blobID with
  | .error p => (.error p, [])
  | .ok formatted =>
    let path := remote.niceRootPath ++ formatted
    (.ok { calcWriter := [], writer := [], path := path, blobID := [], s3 := remote },
     [.logPrintln [.str "Path is".toList, .str path], .ioPipe, .makeChan,
      .goUpload remote.Bucket path, .createETagCalculator])

/-- The method `(*s3Upload).Writer`, followed by one successful `Write(p)` on the
`io.MultiWriter(up.calc.Writer, up.writer)` it returns: both sinks receive `p`. -/
def s3Upload.Writer (up : s3Upload) (p : List Byte) : s3Upload :=
  { up with calcWriter := up.calcWriter ++ p, writer := up.writer ++ p }

/-- The method `(*s3Upload).End`. -/
def s3Upload.End (env : Env) (up : s3Upload) : Except Panic UploadedBlob × List Event :=
  let ev₀ := [Event.pipeClose, Event.calcClose, Event.recvResult]
  match (uploadWorker env up.s3.Bucket up.path up.writer).1 with
  | .error e => (.error (.err e), ev₀)
  | .ok result =>
    let etag := env.etag up.calcWriter
    let ev₁ := ev₀ ++ [.logPrintln [.str "Upload output".toList, .str result.Location],
      .calcResult, .logPrintln [.str "Expecting etag".toList, .str etag]]
    match fetchETagAndSize env up.s3.Bucket up.path with
    | (.error p, evF) => (.error p, ev₁ ++ evF)
    | (.ok (realEtag, realSize), evF) =>
      let ev₂ := ev₁ ++ evF ++ [.logPrintln [.str "Real etag was".toList, .str realEtag]]
      if etag ≠ realEtag then
        (.error (.str "aws broke the etag lmao".toList), ev₂)
      else
        (.ok { Path := up.path, Checksum := etag, Size := realSize }, ev₂)

/-- The method `(*S3).UploadDatabaseBackup`. -/
def S3.UploadDatabaseBackup (env : Env) (remote : S3) (encryptedDatabase : List Byte)
    (name : GoString) : Except Panic Unit × List Event :=
  let path := remote.niceRootPath ++ name
  let ev₀ := [Event.upload remote.Bucket path encryptedDatabase]
  match env.Upload remote.Bucket path encryptedDatabase with
  | .error e => (.error (.err e), ev₀)
  | .ok result =>
    let ev₁ := ev₀ ++ [.createETagCalculator, .calcWrite encryptedDatabase, .calcClose,
      .calcResult]
    let etag := env.etag encryptedDatabase
    match fetchETagAndSize env remote.Bucket path with
    | (.error p, evF) => (.error p, ev₁ ++ evF)
    | (.ok (realEtag, realSize), evF) =>
      if realSize ≠ (encryptedDatabase.length : Int) then
        (.error (.str "upload length failed".toList), ev₁ ++ evF)
      else if realEtag ≠ etag then
        (.error (.str "upload hash failed".toList), ev₁ ++ evF)
      else
        (.ok (), ev₁ ++ evF ++
          [.logPrintln [.str "Database backed up to S3. Location:".toList, .str result.Location]])

/-- Modelled from the spec: `utils.EmptyReadCloser` is not in this file; the specification
describes it as an already-closed, empty stream. An `io.ReadCloser` is embedded by the bytes
that remain to be read from it. -/
inductive ReadCloser where
  /-- The value `&utils.EmptyReadCloser{}`. -/
  | EmptyReadCloser
  /-- The `Body` of a `GetObject` response. -/
  | Body (content : List Byte)
  deriving DecidableEq, Repr

/-- Modelled from the spec: the bytes a reader obtains from an `io.ReadCloser`; none from
`utils.EmptyReadCloser`, which is not in this file. -/
def ReadCloser.readAll : ReadCloser → List Byte
  | .EmptyReadCloser => []
  | .Body content => content

/-- The method `(*S3).DownloadSection`. -/
def S3.DownloadSection (env : Env) (remote : S3) (path : GoString) (offset length : Int) :
    Except Panic ReadCloser × List Event :=
  if length = 0 then
    (.ok .EmptyReadCloser, [])
  else
    let rangeStr := env.FormatHTTPRange offset length
    let ev := [Event.logPrintln [.str "S3 key is".toList, .str path],
      Event.logPrintln [.str "S3 range is".toList, .str rangeStr],
      Event.getObject remote.Bucket path rangeStr]
    match env.GetObject remote.Bucket path rangeStr with
    | .error e => (.error (.err e), ev)
    | .ok body => (.ok (.Body body), ev)

/-- The loop `for _, obj := range page.Contents` of the callback in `ListBlobs`. -/
def listContents : List UploadedBlob → List Object → Except Panic (List UploadedBlob)
  | files, [] => .ok files
  | files, obj :: rest =>
    if strings.Contains obj.Key "db-backup-".toList then
      listContents files rest
    else
      match slice obj.ETag 1 ((obj.ETag.length : Int) - 1) with
      | .error p => .error p
      | .ok etag =>
        listContents (files ++ [{ Path := obj.Key, Checksum := etag, Size := obj.Size }]) rest

/-- The calls of the callback in `ListBlobs`, one per page; the callback always returns
`true`, so every page is visited. -/
def listPages : List UploadedBlob → List (ListObjectsOutput × Bool) →
    Except Panic (List UploadedBlob) × List Event
  | files, [] => (.ok files, [])
  | files, (page, lastPage) :: rest =>
    match listContents files page.Contents with
    | .error p => (.error p, [])
    | .ok files1 =>
      let ev : List Event :=
        if !lastPage then
          [.logPrintln [.str "Fetched page from S3. Have".toList, .int files1.length,
            .str "blobs so far".toList]]
        else []
      ((listPages files1 rest).1, ev ++ (listPages files1 rest).2)

/-- The method `(*S3).ListBlobs`. -/
def S3.ListBlobs (env : Env) (remote : S3) : Except Panic (List UploadedBlob) × List Event :=
  let ev₀ := [Event.logPrintln [.str "Listing blobs in S3".toList],
    Event.listObjectsPages remote.Bucket remote.niceRootPath]
  match listPages [] (env.ListObjectsPages remote.Bucket remote.niceRootPath).1 with
  | (.error p, ev) => (.error p, ev₀ ++ ev)
  | (.ok files, ev) =>
    match (env.ListObjectsPages remote.Bucket remote.niceRootPath).2 with
    | some e => (.error (.err e), ev₀ ++ ev)
    | none =>
      (.ok files, ev₀ ++ ev ++
        [.logPrintln [.str "Listed".toList, .int files.length, .str "blobs in S3".toList]])

/-- The method `(*S3).String`. -/
def S3.String (remote : S3) : GoString :=
  "S3 bucket ".toList ++ remote.Bucket ++ " at path ".toList ++ remote.RootPath

/-- The record the lister is specified to emit for a retained object: the key, the ETag
with its first and last character removed, and the size. -/
def retainedBlob (obj : Object) : UploadedBlob :=
  { Path := obj.Key, Checksum := (obj.ETag.drop 1).dropLast, Size := obj.Size }

/-- A Go string between double quotes, the form in which the store reports an ETag. -/
def quoted (s : GoString) : GoString := '"' :: s ++ ['"']

/-- The records the lister is specified to emit for one page: the objects whose key does not
contain `db-backup-`, in the order of the page, each as its `retainedBlob`. -/
def retained (page : ListObjectsOutput) : List UploadedBlob :=
  (page.Contents.filter fun obj => !strings.Contains obj.Key "db-backup-".toList).map
    retainedBlob

/-- A listing of two pages for the concrete runs: a blob and a database backup on the first
page, a blob on the second. -/
def demoListing : List (ListObjectsOutput × Bool) × Option Error :=
  ([({ Contents := [{ Key := "data/00/aa".toList, ETag := quoted "e1".toList, Size := 10 },
        { Key := "data/db-backup-7".toList, ETag := quoted "e2".toList, Size := 20 }] },
      false),
    ({ Contents := [{ Key := "data/01/bb".toList, ETag := quoted "e3-2".toList, Size := 30 }] },
      true)],
   none)

/-- An environment for concrete runs: the calculator `etag`, and a store that gives the same
answer to every upload, to every `HeadObject` and to every listing. -/
def constEnv (etag : List Byte → GoString) (upload : s3Result)
    (head : Except Error HeadObjectOutput)
    (listing : List (ListObjectsOutput × Bool) × Option Error) : Env :=
  { etag := etag
    FormatHTTPRange := fun _ _ => []
    Upload := fun _ _ _ => upload
    HeadObject := fun _ _ => head
    GetObject := fun _ _ _ => .ok []
    ListObjectsPages := fun _ _ => listing }

/-- The receiver of the concrete runs: bucket `b`, root path `data`. -/
def demoRemote : S3 := { StorageID := [], Bucket := "b".toList, RootPath := "data".toList }

/-- The session of the concrete runs: begun by `BeginBlobUpload` for the identifier of 32 zero
bytes on `demoRemote`, then the bytes `1, 2, 3` written through `Writer()`. -/
def demoUpload : s3Upload :=
  s3Upload.Writer
    { calcWriter := [], writer := [],
      path := "data/00/00/".toList ++ List.replicate 64 '0', blobID := [], s3 := demoRemote }
    [1, 2, 3]

/-! Lemmas on the library functions -/

theorem slice_ok (s : GoString) (lo hi : Nat) (h₁ : lo ≤ hi) (h₂ : hi ≤ s.length) :
    slice s (lo : Int) (hi : Int) = .ok ((s.take hi).drop lo) := by
  have h : (0 : Int) ≤ lo ∧ (lo : Int) ≤ hi ∧ (hi : Int) ≤ (s.length : Int) := by
    refine ⟨by omega, by omega, by omega⟩
  simp [slice, h]

theorem hexdigit_injective :
    ∀ i j : Fin 16, hextable.getD i.val '0' = hextable.getD j.val '0' → i = j := by
  decide

theorem hexdigit_mem : ∀ i : Fin 16, hextable.getD i.val '0' ∈ hextable := by
  decide

theorem byte_shift (v : Byte) : v.val >>> 4 = v.val / 16 := by
  simp [Nat.shiftRight_eq_div_pow]

theorem byte_mask (v : Byte) : v.val &&& 0x0f = v.val % 16 :=
  Nat.and_pow_two_sub_one_eq_mod v.val 4

theorem hexEncode_cons (v : Byte) (src : List Byte) :
    hex.EncodeToString (v :: src) =
      hextable.getD (v.val / 16) '0' :: hextable.getD (v.val % 16) '0' ::
        hex.EncodeToString src := by
  simp [hex.EncodeToString, byte_shift, byte_mask]

theorem hexEncode_length (src : List Byte) :
    (hex.EncodeToString src).length = 2 * src.length := by
  induction src with
  | nil => rfl
  | cons v src ih => rw [hexEncode_cons]; simp [ih]; omega

theorem hexEncode_mem (src : List Byte) : ∀ c ∈ hex.EncodeToString src, c ∈ hextable := by
  induction src with
  | nil => intro c hc; simp [hex.EncodeToString] at hc
  | cons v src ih =>
    intro c hc
    rw [hexEncode_cons] at hc
    have h₁ : v.val / 16 < 16 := by omega
    have h₂ : v.val % 16 < 16 := by omega
    rcases List.mem_cons.mp hc with rfl | hc
    · exact hexdigit_mem ⟨_, h₁⟩
    rcases List.mem_cons.mp hc with rfl | hc
    · exact hexdigit_mem ⟨_, h₂⟩
    · exact ih c hc

theorem hexEncode_injective :
    ∀ a b : List Byte, hex.EncodeToString a = hex.EncodeToString b → a = b := by
  intro a
  induction a with
  | nil =>
    intro b h
    cases b with
    | nil => rfl
    | cons w b => rw [hexEncode_cons] at h; simp [hex.EncodeToString] at h
  | cons v a ih =>
    intro b h
    cases b with
    | nil => rw [hexEncode_cons] at h; simp [hex.EncodeToString] at h
    | cons w b =>
      rw [hexEncode_cons, hexEncode_cons] at h
      have h₁ := (List.cons.inj h).1
      have h₂ := (List.cons.inj (List.cons.inj h).2).1
      have h₃ := (List.cons.inj (List.cons.inj h).2).2
      have e₁ := hexdigit_injective ⟨v.val / 16, by omega⟩ ⟨w.val / 16, by omega⟩ h₁
      have e₂ := hexdigit_injective ⟨v.val % 16, by omega⟩ ⟨w.val % 16, by omega⟩ h₂
      have e₁ : v.val / 16 = w.val / 16 := by simpa using e₁
      have e₂ : v.val % 16 = w.val % 16 := by simpa using e₂
      have hv : v = w := by apply Fin.ext; omega
      rw [hv, ih b h₃]

/-- The digits written by `hex.EncodeToString` are the lowercase base-16 digits of each byte,
high digit first. -/
theorem hexEncode_digits (src : List Byte) :
    hex.EncodeToString src =
      src.flatMap fun v => [Nat.digitChar (v.val / 16), Nat.digitChar (v.val % 16)] := by
  have key : ∀ i : Fin 16, hextable.getD i.val '0' = Nat.digitChar i.val := by decide
  induction src with
  | nil => rfl
  | cons v src ih =>
    rw [hexEncode_cons, ih]
    have h₁ := key ⟨v.val / 16, by omega⟩
    have h₂ := key ⟨v.val % 16, by omega⟩
    simp only at h₁ h₂
    rw [h₁, h₂, List.flatMap_cons]
    rfl

/-! Lemmas on the path scheme -/

theorem formatPath_ok (blobID : List Byte) (hlen : blobID.length = 32) :
    formatPath blobID =
      .ok ((hex.EncodeToString blobID).take 2 ++ ['/'] ++
        ((hex.EncodeToString blobID).take 4).drop 2 ++ ['/'] ++ hex.EncodeToString blobID) := by
  have h64 : (hex.EncodeToString blobID).length = 64 := by rw [hexEncode_length, hlen]
  have s₁ := slice_ok (hex.EncodeToString blobID) 0 2 (by omega) (by omega)
  have s₂ := slice_ok (hex.EncodeToString blobID) 2 4 (by omega) (by omega)
  simp only [Nat.cast_ofNat, Nat.cast_zero, List.drop_zero] at s₁ s₂
  unfold formatPath
  simp only [hlen, ne_eq, not_true_eq_false, if_false]
  rw [s₁, s₂]
  rfl

theorem formatPath_panics (blobID : List Byte) (hlen : blobID.length ≠ 32) :
    formatPath blobID = .error (.int blobID.length) := by
  simp [formatPath, hlen]

theorem hasSuffix_iff (s suffix : GoString) :
    strings.HasSuffix s suffix = true ↔ ∃ t, s = t ++ suffix := by
  constructor
  · intro h
    simp only [strings.HasSuffix, Bool.and_eq_true, decide_eq_true_eq, beq_iff_eq] at h
    refine ⟨s.take (s.length - suffix.length), ?_⟩
    conv_lhs => rw [← List.take_append_drop (s.length - suffix.length) s]
    rw [h.2]
  · rintro ⟨t, rfl⟩
    simp [strings.HasSuffix]

theorem niceRootPath_empty (remote : S3) (h : remote.RootPath = []) :
    remote.niceRootPath = [] := by
  simp [S3.niceRootPath, h]

theorem niceRootPath_slash (remote : S3) (h : ∃ t, remote.RootPath = t ++ ['/']) :
    remote.niceRootPath = remote.RootPath := by
  have h₁ : strings.HasSuffix remote.RootPath ['/'] = true := (hasSuffix_iff _ _).mpr h
  simp [S3.niceRootPath, h₁]

theorem niceRootPath_other (remote : S3) (h₀ : remote.RootPath ≠ [])
    (h : ¬ ∃ t, remote.RootPath = t ++ ['/']) :
    remote.niceRootPath = remote.RootPath ++ ['/'] := by
  have h₁ : ¬ strings.HasSuffix remote.RootPath ['/'] = true :=
    fun hs => h ((hasSuffix_iff _ _).mp hs)
  simp [S3.niceRootPath, h₀, h₁]

theorem niceRootPath_ends (remote : S3) (h₀ : remote.RootPath ≠ []) :
    ∃ t, remote.niceRootPath = t ++ ['/'] := by
  by_cases h : ∃ t, remote.RootPath = t ++ ['/']
  · rw [niceRootPath_slash remote h]; exact h
  · exact ⟨remote.RootPath, niceRootPath_other remote h₀ h⟩

theorem niceRootPath_idem (remote : S3) :
    S3.niceRootPath { remote with RootPath := remote.niceRootPath } = remote.niceRootPath := by
  by_cases h₀ : remote.RootPath = []
  · have e := niceRootPath_empty remote h₀
    rw [e]
    exact niceRootPath_empty _ rfl
  · exact niceRootPath_slash _ (niceRootPath_ends remote h₀)

theorem formatPath_length (blobID : List Byte) (hlen : blobID.length = 32) :
    ((hex.EncodeToString blobID).take 2 ++ ['/'] ++
      ((hex.EncodeToString blobID).take 4).drop 2 ++ ['/'] ++
        hex.EncodeToString blobID).length = 70 := by
  have h64 : (hex.EncodeToString blobID).length = 64 := by rw [hexEncode_length, hlen]
  simp [h64]

theorem formatPath_tail (blobID : List Byte) (hlen : blobID.length = 32) :
    ((hex.EncodeToString blobID).take 2 ++ ['/'] ++
      ((hex.EncodeToString blobID).take 4).drop 2 ++ ['/'] ++
        hex.EncodeToString blobID).drop 6 = hex.EncodeToString blobID := by
  have h64 : (hex.EncodeToString blobID).length = 64 := by rw [hexEncode_length, hlen]
  have hl : ((hex.EncodeToString blobID).take 2 ++ ['/'] ++
      ((hex.EncodeToString blobID).take 4).drop 2 ++ ['/']).length = 6 := by
    simp [h64]
  rw [← hl]
  exact List.drop_left _ _

theorem formatPath_inj (a b : List Byte) (ha : a.length = 32) (hb : b.length = 32)
    (h : formatPath a = formatPath b) : a = b := by
  rw [formatPath_ok a ha, formatPath_ok b hb] at h
  have h₁ := congrArg (List.drop 6) (Except.ok.inj h)
  rw [formatPath_tail a ha, formatPath_tail b hb] at h₁
  exact hexEncode_injective a b h₁

theorem BeginBlobUpload_ok (remote : S3) (blobID : List Byte) (formatted : GoString)
    (h : formatPath blobID = .ok formatted) :
    remote.BeginBlobUpload blobID =
      (.ok { calcWriter := [], writer := [], path := remote.niceRootPath ++ formatted,
             blobID := [], s3 := remote },
       [.logPrintln [.str "Path is".toList, .str (remote.niceRootPath ++ formatted)],
        .ioPipe, .makeChan, .goUpload remote.Bucket (remote.niceRootPath ++ formatted),
        .createETagCalculator]) := by
  simp only [S3.BeginBlobUpload, h]

/-! The path scheme -/

/-- C1: for every blob identifier of exactly 32 bytes, `formatPath` returns
`h[0:2] ++ "/" ++ h[2:4] ++ "/" ++ h`, where `h` is the hexadecimal encoding of the identifier:
64 characters, all of them lowercase hexadecimal digits, two per byte with the high digit
first. The identifier of 32 zero bytes is mapped to `00/00/` followed by 64 characters `0`. -/
theorem formatPath_spec (blobID : List Byte) (hlen : blobID.length = 32) :
    formatPath blobID =
        .ok ((hex.EncodeToString blobID).take 2 ++ "/".toList ++
          ((hex.EncodeToString blobID).take 4).drop 2 ++ "/".toList ++
            hex.EncodeToString blobID) ∧
      (hex.EncodeToString blobID).length = 64 ∧
      (∀ c ∈ hex.EncodeToString blobID, c ∈ "0123456789abcdef".toList) ∧
      hex.EncodeToString blobID =
        blobID.flatMap (fun v => [Nat.digitChar (v.val / 16), Nat.digitChar (v.val % 16)]) ∧
      formatPath (List.replicate 32 0) = .ok ("00/00/".toList ++ List.replicate 64 '0') := by
  refine ⟨formatPath_ok blobID hlen, ?_, hexEncode_mem blobID, hexEncode_digits blobID, ?_⟩
  · rw [hexEncode_length, hlen]
  · decide

theorem formatPath_spec_witness :
    formatPath [0xde, 0xad, 0xbe, 0xef, 0, 1, 2, 3, 4, 5, 6, 7, 8, 9, 10, 11, 12, 13, 14, 15,
        16, 17, 18, 19, 20, 21, 22, 23, 24, 25, 26, 255] =
      .ok "de/ad/deadbeef000102030405060708090a0b0c0d0e0f101112131415161718191aff".toList := by
  have h := (formatPath_spec [0xde, 0xad, 0xbe, 0xef, 0, 1, 2, 3, 4, 5, 6, 7, 8, 9, 10, 11, 12,
    13, 14, 15, 16, 17, 18, 19, 20, 21, 22, 23, 24, 25, 26, 255] (by decide)).1
  rw [h]
  decide

/-- C5: `niceRootPath` returns `""` for an empty `RootPath`, the `RootPath` itself when it
already ends with `/`, and the `RootPath` followed by `/` otherwise. Hence every non-empty
root yields a result that ends with `/`, the normalization is idempotent, `data` becomes
`data/`, and for a 32-byte identifier the key of `BeginBlobUpload` (the path of the session
and the key handed to the transport) is `niceRootPath()` followed by `formatPath(blobID)`. -/
theorem niceRootPath_spec (remote : S3) (blobID : List Byte) :
    (remote.RootPath = [] → remote.niceRootPath = []) ∧
      ((∃ t, remote.RootPath = t ++ "/".toList) → remote.niceRootPath = remote.RootPath) ∧
      (remote.RootPath ≠ [] → (¬ ∃ t, remote.RootPath = t ++ "/".toList) →
        remote.niceRootPath = remote.RootPath ++ "/".toList) ∧
      (remote.RootPath ≠ [] → ∃ t, remote.niceRootPath = t ++ "/".toList) ∧
      S3.niceRootPath { remote with RootPath := remote.niceRootPath } = remote.niceRootPath ∧
      S3.niceRootPath { remote with RootPath := "data".toList } = "data/".toList ∧
      (blobID.length = 32 → ∃ formatted up ev,
        formatPath blobID = .ok formatted ∧
        remote.BeginBlobUpload blobID = (.ok up, ev) ∧
        up.path = remote.niceRootPath ++ formatted ∧
        Event.goUpload remote.Bucket (remote.niceRootPath ++ formatted) ∈ ev) := by
  refine ⟨niceRootPath_empty remote, niceRootPath_slash remote, niceRootPath_other remote,
    niceRootPath_ends remote, niceRootPath_idem remote, ?_, ?_⟩
  · simp only [S3.niceRootPath]
    decide
  · intro hlen
    refine ⟨_, _, _, formatPath_ok blobID hlen,
      BeginBlobUpload_ok remote blobID _ (formatPath_ok blobID hlen), rfl, ?_⟩
    simp

theorem niceRootPath_spec_witness :
    S3.niceRootPath { StorageID := [], Bucket := "b".toList, RootPath := "backups/gb".toList } =
        "backups/gb/".toList ∧
      S3.niceRootPath { StorageID := [], Bucket := "b".toList, RootPath := "backups/".toList } =
        "backups/".toList ∧
      ∃ up ev,
        S3.BeginBlobUpload
            { StorageID := [], Bucket := "b".toList, RootPath := "data".toList }
            (List.replicate 32 0) = (.ok up, ev) ∧
          up.path = "data/00/00/".toList ++ List.replicate 64 '0' := by
  refine ⟨?_, ?_, ?_⟩
  · exact (niceRootPath_spec
      { StorageID := [], Bucket := "b".toList, RootPath := "backups/gb".toList } []).2.2.1
      (by decide) (by rintro ⟨t, ht⟩; have h := congrArg List.getLast? ht; simp at h)
  · exact (niceRootPath_spec
      { StorageID := [], Bucket := "b".toList, RootPath := "backups/".toList } []).2.1
      ⟨"backups".toList, by decide⟩
  · obtain ⟨formatted, up, ev, h₁, h₂, h₃, _⟩ := (niceRootPath_spec
      { StorageID := [], Bucket := "b".toList, RootPath := "data".toList }
      (List.replicate 32 0)).2.2.2.2.2.2 (by decide)
    refine ⟨up, ev, h₂, ?_⟩
    have h₄ : formatPath (List.replicate 32 0) =
        .ok ("00/00/".toList ++ List.replicate 64 '0') := by decide
    rw [h₄] at h₁
    rw [h₃, ← Except.ok.inj h₁]
    decide

/-- C10: the path scheme is injective and of fixed length. For all 32-byte identifiers `a`
and `b`, `formatPath` succeeds on both, each result has exactly 70 characters, all of them
among `0-9`, `a-f` and `/`, equal results force `a = b`, and for a fixed `RootPath` equal
upload keys `niceRootPath() ++ formatPath(_)` (the paths of the sessions begun by
`BeginBlobUpload`) force `a = b`. -/
theorem formatPath_injective (remote : S3) (a b : List Byte) (ha : a.length = 32)
    (hb : b.length = 32) :
    (formatPath a = formatPath b → a = b) ∧
      (∃ pa pb upa upb eva evb,
        formatPath a = .ok pa ∧ formatPath b = .ok pb ∧
        pa.length = 70 ∧ pb.length = 70 ∧
        (∀ c ∈ pa, c ∈ "0123456789abcdef/".toList) ∧
        (∀ c ∈ pb, c ∈ "0123456789abcdef/".toList) ∧
        remote.BeginBlobUpload a = (.ok upa, eva) ∧
        remote.BeginBlobUpload b = (.ok upb, evb) ∧
        upa.path = remote.niceRootPath ++ pa ∧
        upb.path = remote.niceRootPath ++ pb ∧
        (upa.path = upb.path → a = b)) := by
  have chars : ∀ x : List Byte, ∀ c ∈ (hex.EncodeToString x).take 2 ++ ['/'] ++
      ((hex.EncodeToString x).take 4).drop 2 ++ ['/'] ++ hex.EncodeToString x,
      c ∈ "0123456789abcdef/".toList := by
    intro x c hc
    have sub : ∀ d ∈ hextable, d ∈ "0123456789abcdef/".toList := by decide
    simp only [List.mem_append, List.mem_singleton] at hc
    rcases hc with (((hc | hc) | hc) | hc) | hc
    · exact sub c (hexEncode_mem x c (List.mem_of_mem_take hc))
    · subst hc; decide
    · exact sub c (hexEncode_mem x c (List.mem_of_mem_take (List.mem_of_mem_drop hc)))
    · subst hc; decide
    · exact sub c (hexEncode_mem x c hc)
  refine ⟨formatPath_inj a b ha hb, _, _, _, _, _, _, formatPath_ok a ha, formatPath_ok b hb,
    formatPath_length a ha, formatPath_length b hb, chars a, chars b,
    BeginBlobUpload_ok remote a _ (formatPath_ok a ha),
    BeginBlobUpload_ok remote b _ (formatPath_ok b hb), rfl, rfl, ?_⟩
  · intro h
    have h₁ := List.append_cancel_left h
    apply formatPath_inj a b ha hb
    rw [formatPath_ok a ha, formatPath_ok b hb, h₁]

theorem formatPath_injective_witness :
    (formatPath (List.replicate 32 0) = formatPath (List.replicate 32 1) →
      List.replicate 32 (0 : Byte) = List.replicate 32 1) ∧
    formatPath (List.replicate 32 0) ≠ formatPath (List.replicate 32 1) :=
  ⟨(formatPath_injective { StorageID := [], Bucket := [], RootPath := [] }
      (List.replicate 32 0) (List.replicate 32 1) (by decide) (by decide)).1, by decide⟩

/-! Beginning an upload -/

/-- C4: `BeginBlobUpload(blobID)` panics if and only if `len(blobID) != 32`, and so does
`formatPath`. For every byte slice whose length is not 32 it panics with that length and has
performed no effect: no pipe, no channel, no transport upload and no accumulator has been
created. For every 32-byte slice the path computation succeeds and the session is begun. -/
theorem BeginBlobUpload_panics_iff (remote : S3) (blobID : List Byte) :
    ((∃ p, (remote.BeginBlobUpload blobID).1 = .error p) ↔ blobID.length ≠ 32) ∧
      ((∃ p, formatPath blobID = .error p) ↔ blobID.length ≠ 32) ∧
      (blobID.length ≠ 32 →
        remote.BeginBlobUpload blobID = (.error (.int blobID.length), [])) ∧
      (blobID.length = 32 → ∃ formatted,
        formatPath blobID = .ok formatted ∧
        remote.BeginBlobUpload blobID =
          (.ok { calcWriter := [], writer := [], path := remote.niceRootPath ++ formatted,
                 blobID := [], s3 := remote },
           [.logPrintln [.str "Path is".toList, .str (remote.niceRootPath ++ formatted)],
            .ioPipe, .makeChan, .goUpload remote.Bucket (remote.niceRootPath ++ formatted),
            .createETagCalculator])) := by
  by_cases hlen : blobID.length = 32
  · have h := formatPath_ok blobID hlen
    refine ⟨?_, ?_, fun hne => absurd hlen hne,
      fun _ => ⟨_, h, BeginBlobUpload_ok remote blobID _ h⟩⟩
    · simp [S3.BeginBlobUpload, h, hlen]
    · simp [h, hlen]
  · have h := formatPath_panics blobID hlen
    refine ⟨?_, ?_, fun _ => ?_, fun he => absurd he hlen⟩
    · simp [S3.BeginBlobUpload, h, hlen]
    · simp [h, hlen]
    · simp only [S3.BeginBlobUpload, h]

theorem BeginBlobUpload_panics_iff_witness :
    S3.BeginBlobUpload { StorageID := [], Bucket := "b".toList, RootPath := "data".toList }
        [1, 2, 3] = (.error (.int 3), []) :=
  (BeginBlobUpload_panics_iff
    { StorageID := [], Bucket := "b".toList, RootPath := "data".toList } [1, 2, 3]).2.2.1
    (by decide)

/-! Ending an upload -/

theorem slice_strip (s : GoString) (h : 2 ≤ s.length) :
    slice s 1 ((s.length : Int) - 1) = .ok ((s.drop 1).dropLast) := by
  have e : ((s.length : Int) - 1) = ((s.length - 1 : Nat) : Int) := by omega
  rw [e]
  have h₁ := slice_ok s 1 (s.length - 1) (by omega) (by omega)
  simp only [Nat.cast_one] at h₁
  rw [h₁, List.dropLast_eq_take, List.length_drop, List.drop_take]

theorem slice_strip_short (s : GoString) (h : s.length < 2) :
    slice s 1 ((s.length : Int) - 1) = .error .sliceBounds := by
  have hn : ¬ ((0 : Int) ≤ 1 ∧ (1 : Int) ≤ (s.length : Int) - 1 ∧
      (s.length : Int) - 1 ≤ (s.length : Int)) := by omega
  simp only [slice, hn, if_false]

theorem slice_quoted (s : GoString) :
    slice (quoted s) 1 (((quoted s).length : Int) - 1) = .ok s := by
  rw [slice_strip (quoted s) (by simp [quoted])]
  simp [quoted]

theorem fetch_events (env : Env) (bucket path : GoString) :
    (fetchETagAndSize env bucket path).2 = [Event.headObject bucket path] := by
  unfold fetchETagAndSize
  cases env.HeadObject bucket path with
  | error e => rfl
  | ok result =>
    simp only
    cases slice result.ETag 1 ((result.ETag.length : Int) - 1) <;> rfl

theorem fetch_ok_iff (env : Env) (bucket path etag : GoString) (size : Int) :
    (fetchETagAndSize env bucket path).1 = .ok (etag, size) ↔
      ∃ head, env.HeadObject bucket path = .ok head ∧ 2 ≤ head.ETag.length ∧
        etag = (head.ETag.drop 1).dropLast ∧ size = head.ContentLength := by
  unfold fetchETagAndSize
  cases hh : env.HeadObject bucket path with
  | error e => simp
  | ok result =>
    simp only
    by_cases hl : 2 ≤ result.ETag.length
    · rw [slice_strip _ hl]
      constructor
      · intro h
        have h' := Except.ok.inj h
        exact ⟨result, rfl, hl, (congrArg Prod.fst h').symm, (congrArg Prod.snd h').symm⟩
      · rintro ⟨head, h₁, _, h₃, h₄⟩
        cases Except.ok.inj h₁
        rw [h₃, h₄]
    · rw [slice_strip_short _ (by omega)]
      constructor
      · intro h; cases h
      · rintro ⟨head, h₁, h₂, _⟩
        cases Except.ok.inj h₁
        exact absurd h₂ hl

theorem End_transport_error (env : Env) (up : s3Upload) (e : Error)
    (h : (uploadWorker env up.s3.Bucket up.path up.writer).1 = .error e) :
    s3Upload.End env up = (.error (.err e), [.pipeClose, .calcClose, .recvResult]) := by
  simp only [s3Upload.End, h]

theorem End_ok_iff (env : Env) (up : s3Upload) (blob : UploadedBlob) :
    (s3Upload.End env up).1 = .ok blob ↔
      ∃ out realSize,
        (uploadWorker env up.s3.Bucket up.path up.writer).1 = .ok out ∧
        (fetchETagAndSize env up.s3.Bucket up.path).1 =
          .ok (env.etag up.calcWriter, realSize) ∧
        blob = { Path := up.path, Checksum := env.etag up.calcWriter, Size := realSize } := by
  unfold s3Upload.End
  cases hw : (uploadWorker env up.s3.Bucket up.path up.writer).1 with
  | error e => simp
  | ok out =>
    simp only
    rcases hf : fetchETagAndSize env up.s3.Bucket up.path with ⟨r, evF⟩
    cases r with
    | error p => simp
    | ok pr =>
      obtain ⟨realEtag, realSize⟩ := pr
      simp only
      by_cases he : env.etag up.calcWriter = realEtag
      · subst he
        simp only [ne_eq, not_true_eq_false, if_false]
        constructor
        · intro h
          exact ⟨out, realSize, rfl, rfl, (Except.ok.inj h).symm⟩
        · rintro ⟨out', realSize', _, h₂, h₃⟩
          have h₄ := congrArg Prod.snd (Except.ok.inj h₂)
          simp only at h₄
          rw [h₃, h₄]
      · simp only [ne_eq, he, not_false_eq_true, if_true]
        constructor
        · intro h; cases h
        · rintro ⟨out', realSize', _, h₂, _⟩
          have h₄ := congrArg Prod.fst (Except.ok.inj h₂)
          exact absurd h₄.symm he

theorem End_total (env : Env) (up : s3Upload) :
    (∃ blob, (s3Upload.End env up).1 = .ok blob) ∨ ∃ p, (s3Upload.End env up).1 = .error p := by
  cases h : (s3Upload.End env up).1 with
  | error p => exact Or.inr ⟨p, rfl⟩
  | ok blob => exact Or.inl ⟨blob, rfl⟩

/-- C2: `End()` does not compare the size reported by the metadata fetcher with the number of
bytes written. The session `demoUpload` has had 3 bytes written through its sink; the
transport succeeds and `HeadObject` reports the locally computed checksum between quotes
together with a `ContentLength` of 7. `End()` returns an `UploadedBlob` whose `Size` is 7,
whatever the checksum calculator is. -/
theorem End_accepts_wrong_size (etag : List Byte → GoString) :
    demoUpload.writer.length = 3 ∧ demoUpload.calcWriter.length = 3 ∧
      (fetchETagAndSize
          (constEnv etag (.ok { Location := "loc".toList })
            (.ok { ETag := quoted (etag [1, 2, 3]), ContentLength := 7 }) ([], none))
          demoUpload.s3.Bucket demoUpload.path).1 = .ok (etag [1, 2, 3], 7) ∧
      (s3Upload.End
          (constEnv etag (.ok { Location := "loc".toList })
            (.ok { ETag := quoted (etag [1, 2, 3]), ContentLength := 7 }) ([], none))
          demoUpload).1 =
        .ok { Path := "data/00/00/".toList ++ List.replicate 64 '0',
              Checksum := etag [1, 2, 3], Size := 7 } := by
  have hf : (fetchETagAndSize
      (constEnv etag (.ok { Location := "loc".toList })
        (.ok { ETag := quoted (etag [1, 2, 3]), ContentLength := 7 }) ([], none))
      demoUpload.s3.Bucket demoUpload.path).1 = .ok (etag [1, 2, 3], 7) := by
    simp only [fetchETagAndSize, constEnv, slice_quoted]
  refine ⟨rfl, rfl, hf, ?_⟩
  rw [End_ok_iff]
  exact ⟨{ Location := "loc".toList }, 7, rfl, hf, rfl⟩

/-- C3: `End()` fails whenever the checksum fetched from the store for the uploaded path
differs from the checksum computed locally by the accumulator, whatever the sizes are; and
whenever `End()` returns an `UploadedBlob`, its `Checksum` is the locally computed checksum
and is the ETag reported by `HeadObject` with its first and last (quote) characters
removed. -/
theorem End_checksum (env : Env) (up : s3Upload) :
    (∀ realEtag realSize,
        (fetchETagAndSize env up.s3.Bucket up.path).1 = .ok (realEtag, realSize) →
        realEtag ≠ env.etag up.calcWriter →
        ∃ p, (s3Upload.End env up).1 = .error p) ∧
      (∀ blob, (s3Upload.End env up).1 = .ok blob →
        blob.Checksum = env.etag up.calcWriter ∧
        ∃ head, env.HeadObject up.s3.Bucket up.path = .ok head ∧
          2 ≤ head.ETag.length ∧ blob.Checksum = (head.ETag.drop 1).dropLast ∧
          blob.Size = head.ContentLength) := by
  constructor
  · intro realEtag realSize hf hne
    rcases End_total env up with ⟨blob, hb⟩ | hp
    · obtain ⟨_, realSize', _, h₂, _⟩ := (End_ok_iff env up blob).mp hb
      rw [hf] at h₂
      exact absurd (congrArg Prod.fst (Except.ok.inj h₂)) hne
    · exact hp
  · intro blob hb
    obtain ⟨_, realSize, _, h₂, h₃⟩ := (End_ok_iff env up blob).mp hb
    obtain ⟨head, h₄, h₅, h₆, h₇⟩ := (fetch_ok_iff env _ _ _ _).mp h₂
    subst h₃
    exact ⟨rfl, head, h₄, h₅, h₆, h₇⟩

theorem End_checksum_witness :
    (∃ p, (s3Upload.End
        (constEnv (fun _ => "5289df73".toList) (.ok { Location := "loc".toList })
          (.ok { ETag := quoted "0badc0de".toList, ContentLength := 3 }) ([], none))
        demoUpload).1 = .error p) ∧
      (s3Upload.End
        (constEnv (fun _ => "5289df73".toList) (.ok { Location := "loc".toList })
          (.ok { ETag := quoted "0badc0de".toList, ContentLength := 3 }) ([], none))
        demoUpload).1 = .error (.str "aws broke the etag lmao".toList) :=
  ⟨(End_checksum
      (constEnv (fun _ => "5289df73".toList) (.ok { Location := "loc".toList })
        (.ok { ETag := quoted "0badc0de".toList, ContentLength := 3 }) ([], none))
      demoUpload).1 "0badc0de".toList 3 (by decide) (by decide), by decide⟩

/-- C6: there is no partial success. If the transport worker reports an error, `End()` panics
with that error after closing the two sinks and receiving the worker's result: it returns no
`UploadedBlob`, does not receive the accumulator's result and sends no request to the store.
`End()` returns an `UploadedBlob` only when the worker reported no error and the metadata
fetcher returned the locally computed checksum. -/
theorem End_no_partial_success (env : Env) (up : s3Upload) :
    (∀ e, (uploadWorker env up.s3.Bucket up.path up.writer).1 = .error e →
        s3Upload.End env up = (.error (.err e), [.pipeClose, .calcClose, .recvResult]) ∧
        (∀ blob, (s3Upload.End env up).1 ≠ .ok blob) ∧
        Event.calcResult ∉ (s3Upload.End env up).2 ∧
        ∀ ev ∈ (s3Upload.End env up).2, ev.isRequest = false) ∧
      (∀ blob, (s3Upload.End env up).1 = .ok blob →
        (∃ out, (uploadWorker env up.s3.Bucket up.path up.writer).1 = .ok out) ∧
        (∃ out, env.Upload up.s3.Bucket up.path up.writer = .ok out) ∧
        ∃ realSize, (fetchETagAndSize env up.s3.Bucket up.path).1 =
          .ok (env.etag up.calcWriter, realSize)) := by
  constructor
  · intro e he
    have h := End_transport_error env up e he
    rw [h]
    refine ⟨rfl, ?_, ?_, ?_⟩
    · intro blob hb
      cases hb
    · show Event.calcResult ∉ [Event.pipeClose, Event.calcClose, Event.recvResult]
      decide
    · show ∀ ev ∈ [Event.pipeClose, Event.calcClose, Event.recvResult], ev.isRequest = false
      decide
  · intro blob hb
    obtain ⟨out, realSize, h₁, h₂, _⟩ := (End_ok_iff env up blob).mp hb
    refine ⟨⟨out, h₁⟩, ?_, realSize, h₂⟩
    unfold uploadWorker at h₁
    cases hu : env.Upload up.s3.Bucket up.path up.writer with
    | error e => rw [hu] at h₁; cases h₁
    | ok out' => exact ⟨out', rfl⟩

theorem End_no_partial_success_witness :
    s3Upload.End
        (constEnv (fun _ => "5289df73".toList) (.error "RequestTimeout".toList)
          (.ok { ETag := quoted "5289df73".toList, ContentLength := 3 }) ([], none))
        demoUpload =
      (.error (.err "RequestTimeout".toList), [.pipeClose, .calcClose, .recvResult]) :=
  ((End_no_partial_success
      (constEnv (fun _ => "5289df73".toList) (.error "RequestTimeout".toList)
        (.ok { ETag := quoted "5289df73".toList, ContentLength := 3 }) ([], none))
      demoUpload).1 "RequestTimeout".toList (by decide)).1

/-! The database backup upload -/

theorem backup_transport_error (env : Env) (remote : S3) (data : List Byte)
    (name : GoString) (e : Error)
    (hu : env.Upload remote.Bucket (remote.niceRootPath ++ name) data = .error e) :
    S3.UploadDatabaseBackup env remote data name =
      (.error (.err e), [.upload remote.Bucket (remote.niceRootPath ++ name) data]) := by
  simp only [S3.UploadDatabaseBackup, hu]

theorem backup_fetch_error (env : Env) (remote : S3) (data : List Byte) (name : GoString)
    (out : UploadOutput) (p : Panic) (evF : List Event)
    (hu : env.Upload remote.Bucket (remote.niceRootPath ++ name) data = .ok out)
    (hf : fetchETagAndSize env remote.Bucket (remote.niceRootPath ++ name) = (.error p, evF)) :
    S3.UploadDatabaseBackup env remote data name =
      (.error p, [Event.upload remote.Bucket (remote.niceRootPath ++ name) data] ++
        [.createETagCalculator, .calcWrite data, .calcClose, .calcResult] ++ evF ++ []) := by
  simp only [S3.UploadDatabaseBackup, hu, hf, List.append_nil]

theorem backup_fetched (env : Env) (remote : S3) (data : List Byte) (name : GoString)
    (out : UploadOutput) (realEtag : GoString) (realSize : Int) (evF : List Event)
    (hu : env.Upload remote.Bucket (remote.niceRootPath ++ name) data = .ok out)
    (hf : fetchETagAndSize env remote.Bucket (remote.niceRootPath ++ name) =
      (.ok (realEtag, realSize), evF)) :
    S3.UploadDatabaseBackup env remote data name =
      if realSize ≠ (data.length : Int) then
        (.error (.str "upload length failed".toList),
          [Event.upload remote.Bucket (remote.niceRootPath ++ name) data] ++
            [.createETagCalculator, .calcWrite data, .calcClose, .calcResult] ++ evF ++ [])
      else if realEtag ≠ env.etag data then
        (.error (.str "upload hash failed".toList),
          [Event.upload remote.Bucket (remote.niceRootPath ++ name) data] ++
            [.createETagCalculator, .calcWrite data, .calcClose, .calcResult] ++ evF ++ [])
      else
        (.ok (), [Event.upload remote.Bucket (remote.niceRootPath ++ name) data] ++
          [.createETagCalculator, .calcWrite data, .calcClose, .calcResult] ++ evF ++
          [.logPrintln [.str "Database backed up to S3. Location:".toList,
            .str out.Location]]) := by
  simp only [S3.UploadDatabaseBackup, hu, hf, List.append_nil]

theorem backup_requests (remote : S3) (data : List Byte) (name : GoString)
    (tail : List Event) (htail : ∀ ev ∈ tail, ev.isRequest = false) :
    ∀ ev ∈ (([Event.upload remote.Bucket (remote.niceRootPath ++ name) data] ++
        [Event.createETagCalculator, Event.calcWrite data, Event.calcClose,
          Event.calcResult] ++
        [Event.headObject remote.Bucket (remote.niceRootPath ++ name)] ++ tail :
          List Event)),
      ev.isRequest = true →
      ev = .upload remote.Bucket (remote.niceRootPath ++ name) data ∨
      ev = .headObject remote.Bucket (remote.niceRootPath ++ name) := by
  intro ev hmem hreq
  simp only [List.mem_append, List.mem_cons, List.mem_singleton, List.not_mem_nil,
    or_false] at hmem
  rcases hmem with ((h | h | h | h | h) | h) | h
  · exact Or.inl h
  · subst h; cases hreq
  · subst h; cases hreq
  · subst h; cases hreq
  · subst h; cases hreq
  · exact Or.inr h
  · rw [htail ev h] at hreq; cases hreq

/-- C9: `UploadDatabaseBackup(data, name)` uploads under the key `niceRootPath() ++ name` and
looks the same key up afterwards. It completes normally if and only if the transport upload
succeeds, the size reported by the metadata fetcher equals `len(data)` and the checksum it
reports equals the accumulator's checksum of `data`. A transport error makes it panic with
that error, a size mismatch with `upload length failed`, and a checksum mismatch (the sizes
being equal) with `upload hash failed`. -/
theorem UploadDatabaseBackup_spec (env : Env) (remote : S3) (data : List Byte)
    (name : GoString) :
    ((S3.UploadDatabaseBackup env remote data name).1 = .ok () ↔
        (∃ out, env.Upload remote.Bucket (remote.niceRootPath ++ name) data = .ok out) ∧
        ∃ realEtag realSize,
          (fetchETagAndSize env remote.Bucket (remote.niceRootPath ++ name)).1 =
            .ok (realEtag, realSize) ∧
          realSize = (data.length : Int) ∧ realEtag = env.etag data) ∧
      (∀ e, env.Upload remote.Bucket (remote.niceRootPath ++ name) data = .error e →
        S3.UploadDatabaseBackup env remote data name =
          (.error (.err e), [.upload remote.Bucket (remote.niceRootPath ++ name) data])) ∧
      (∀ out realEtag realSize,
        env.Upload remote.Bucket (remote.niceRootPath ++ name) data = .ok out →
        (fetchETagAndSize env remote.Bucket (remote.niceRootPath ++ name)).1 =
          .ok (realEtag, realSize) →
        (realSize ≠ (data.length : Int) →
          (S3.UploadDatabaseBackup env remote data name).1 =
            .error (.str "upload length failed".toList)) ∧
        (realSize = (data.length : Int) → realEtag ≠ env.etag data →
          (S3.UploadDatabaseBackup env remote data name).1 =
            .error (.str "upload hash failed".toList))) ∧
      (S3.UploadDatabaseBackup env remote data name).2.head? =
        some (.upload remote.Bucket (remote.niceRootPath ++ name) data) ∧
      (∀ ev ∈ (S3.UploadDatabaseBackup env remote data name).2, ev.isRequest = true →
        ev = .upload remote.Bucket (remote.niceRootPath ++ name) data ∨
        ev = .headObject remote.Bucket (remote.niceRootPath ++ name)) := by
  have hev := fetch_events env remote.Bucket (remote.niceRootPath ++ name)
  cases hu : env.Upload remote.Bucket (remote.niceRootPath ++ name) data with
  | error e =>
    rw [backup_transport_error env remote data name e hu]
    refine ⟨by simp, ?_, ?_, rfl, ?_⟩
    · intro e' he'
      cases he'
      rfl
    · intro out realEtag realSize ho
      cases ho
    · intro ev hmem _
      exact Or.inl (List.mem_singleton.mp hmem)
  | ok out =>
    rcases hf : fetchETagAndSize env remote.Bucket (remote.niceRootPath ++ name) with ⟨r, evF⟩
    rw [hf] at hev
    simp only at hev
    subst hev
    cases r with
    | error p =>
      rw [backup_fetch_error env remote data name out p _ hu hf]
      refine ⟨by simp, ?_, ?_, rfl, backup_requests remote data name [] (by decide)⟩
      · intro e he
        cases he
      · intro out' realEtag realSize _ h
        cases h
    | ok pr =>
      obtain ⟨realEtag, realSize⟩ := pr
      have hval := backup_fetched env remote data name out realEtag realSize _ hu hf
      have inj : ∀ realEtag' realSize',
          (Except.ok (realEtag, realSize) : Except Panic (GoString × Int)) =
            .ok (realEtag', realSize') → realEtag = realEtag' ∧ realSize = realSize' := by
        intro a b h
        have h₁ := Except.ok.inj h
        exact ⟨congrArg Prod.fst h₁, congrArg Prod.snd h₁⟩
      by_cases hs : realSize = (data.length : Int)
      · by_cases he : realEtag = env.etag data
        · rw [if_neg (not_not.mpr hs), if_neg (not_not.mpr he)] at hval
          rw [hval]
          refine ⟨⟨fun _ => ⟨⟨out, rfl⟩, realEtag, realSize, rfl, hs, he⟩, fun _ => rfl⟩,
            ?_, ?_, rfl, backup_requests remote data name _ ?_⟩
          · intro e h; cases h
          · intro out' realEtag' realSize' _ hf'
            obtain ⟨h₂, h₃⟩ := inj _ _ hf'
            exact ⟨fun hn => absurd (h₃.symm.trans hs) hn,
              fun _ hn => absurd (h₂.symm.trans he) hn⟩
          · intro ev hmem
            rw [List.mem_singleton.mp hmem]
            rfl
        · rw [if_neg (not_not.mpr hs), if_pos he] at hval
          rw [hval]
          refine ⟨⟨(fun h => by cases h), ?_⟩, ?_, ?_, rfl,
            backup_requests remote data name [] (by decide)⟩
          · rintro ⟨_, realEtag', realSize', hf', _, he'⟩
            exact absurd ((inj _ _ hf').1.trans he') he
          · intro e h; cases h
          · intro out' realEtag' realSize' _ hf'
            obtain ⟨h₂, h₃⟩ := inj _ _ hf'
            exact ⟨fun hn => absurd (h₃.symm.trans hs) hn, fun _ _ => rfl⟩
      · rw [if_pos hs] at hval
        rw [hval]
        refine ⟨⟨(fun h => by cases h), ?_⟩, ?_, ?_, rfl,
          backup_requests remote data name [] (by decide)⟩
        · rintro ⟨_, realEtag', realSize', hf', hs', _⟩
          exact absurd ((inj _ _ hf').2.trans hs') hs
        · intro e h; cases h
        · intro out' realEtag' realSize' _ hf'
          obtain ⟨h₂, h₃⟩ := inj _ _ hf'
          exact ⟨fun _ => rfl, fun hn => absurd (h₃.trans hn) hs⟩

theorem UploadDatabaseBackup_spec_witness :
    (S3.UploadDatabaseBackup
        (constEnv (fun _ => "5289df73".toList) (.ok { Location := "loc".toList })
          (.ok { ETag := quoted "5289df73".toList, ContentLength := 3 }) ([], none))
        demoRemote [1, 2, 3] "db-backup-1".toList).1 = .ok () ∧
      (S3.UploadDatabaseBackup
        (constEnv (fun _ => "5289df73".toList) (.ok { Location := "loc".toList })
          (.ok { ETag := quoted "5289df73".toList, ContentLength := 4 }) ([], none))
        demoRemote [1, 2, 3] "db-backup-1".toList).1 =
          .error (.str "upload length failed".toList) :=
  ⟨(UploadDatabaseBackup_spec
      (constEnv (fun _ => "5289df73".toList) (.ok { Location := "loc".toList })
        (.ok { ETag := quoted "5289df73".toList, ContentLength := 3 }) ([], none))
      demoRemote [1, 2, 3] "db-backup-1".toList).1.mpr
      ⟨⟨{ Location := "loc".toList }, rfl⟩, "5289df73".toList, 3, by decide, by decide,
        by decide⟩,
   ((UploadDatabaseBackup_spec
      (constEnv (fun _ => "5289df73".toList) (.ok { Location := "loc".toList })
        (.ok { ETag := quoted "5289df73".toList, ContentLength := 4 }) ([], none))
      demoRemote [1, 2, 3] "db-backup-1".toList).2.2.1
      { Location := "loc".toList } "5289df73".toList 4 rfl (by decide)).1 (by decide)⟩

/-! The section downloader -/

/-- C7: for every path and every offset, `DownloadSection(path, offset, 0)` returns
`utils.EmptyReadCloser`, the stream from which no byte can be read, and performs no effect at
all: no request reaches the store. A `GetObject` request with the formatted range is sent
exactly when `length != 0`, and it is then the only request. -/
theorem DownloadSection_zero (env : Env) (remote : S3) (path : GoString)
    (offset length : Int) :
    S3.DownloadSection env remote path offset 0 = (.ok .EmptyReadCloser, []) ∧
      ReadCloser.readAll .EmptyReadCloser = [] ∧
      ((∃ ev ∈ (S3.DownloadSection env remote path offset length).2, ev.isRequest = true) ↔
        length ≠ 0) ∧
      (Event.getObject remote.Bucket path (env.FormatHTTPRange offset length) ∈
          (S3.DownloadSection env remote path offset length).2 ↔ length ≠ 0) ∧
      (∀ ev ∈ (S3.DownloadSection env remote path offset length).2, ev.isRequest = true →
        ev = .getObject remote.Bucket path (env.FormatHTTPRange offset length)) := by
  refine ⟨by simp [S3.DownloadSection], rfl, ?_⟩
  unfold S3.DownloadSection
  by_cases hl : length = 0
  · simp [hl]
  · simp only [hl, if_false, ne_eq, not_false_eq_true, iff_true]
    cases env.GetObject remote.Bucket path (env.FormatHTTPRange offset length) <;>
      simp [Event.isRequest]

theorem DownloadSection_zero_witness :
    S3.DownloadSection
        (constEnv (fun _ => []) (.error "unused".toList) (.error "unused".toList) ([], none))
        demoRemote "data/00/00/key".toList 4096 0 = (.ok .EmptyReadCloser, []) :=
  (DownloadSection_zero
    (constEnv (fun _ => []) (.error "unused".toList) (.error "unused".toList) ([], none))
    demoRemote "data/00/00/key".toList 4096 0).1

/-! The lister -/

theorem contains_iff (s substr : GoString) :
    strings.Contains s substr = true ↔ substr <:+: s := by
  induction s with
  | nil => simp [strings.Contains, List.isEmpty_iff]
  | cons c s ih => simp [strings.Contains, ih, List.infix_cons_iff]

theorem listContents_ok (objs : List Object) :
    ∀ files : List UploadedBlob,
      (∀ obj ∈ objs, strings.Contains obj.Key "db-backup-".toList = false →
        2 ≤ obj.ETag.length) →
      listContents files objs = .ok (files ++ retained { Contents := objs }) := by
  induction objs with
  | nil => intro files _; simp [listContents, retained]
  | cons obj rest ih =>
    intro files h
    have hrest : ∀ o ∈ rest, strings.Contains o.Key "db-backup-".toList = false →
        2 ≤ o.ETag.length := fun o ho => h o (List.mem_cons_of_mem _ ho)
    unfold listContents
    cases hc : strings.Contains obj.Key "db-backup-".toList with
    | true =>
      simp only [if_true]
      rw [ih files hrest]
      simp only [retained, List.filter_cons, hc, Bool.not_true, Bool.false_eq_true, if_false]
    | false =>
      simp only [Bool.false_eq_true, if_false]
      rw [slice_strip obj.ETag (h obj (List.mem_cons_self _ _) hc)]
      simp only
      rw [ih _ hrest]
      simp only [retained, List.filter_cons, hc, Bool.not_false, if_true, List.map_cons,
        List.append_assoc, List.singleton_append, retainedBlob]

theorem listPages_ok (pages : List (ListObjectsOutput × Bool)) :
    ∀ files : List UploadedBlob,
      (∀ page ∈ pages, ∀ obj ∈ page.1.Contents,
        strings.Contains obj.Key "db-backup-".toList = false → 2 ≤ obj.ETag.length) →
      (listPages files pages).1 = .ok (files ++ pages.flatMap fun page => retained page.1) := by
  induction pages with
  | nil => intro files _; simp [listPages]
  | cons page rest ih =>
    intro files h
    obtain ⟨pg, lastPage⟩ := page
    have h₁ := listContents_ok pg.Contents files (h (pg, lastPage) (List.mem_cons_self _ _))
    have h₂ := ih (files ++ retained { Contents := pg.Contents })
      (fun q hq => h q (List.mem_cons_of_mem _ hq))
    simp only [listPages, h₁, h₂, List.flatMap_cons, List.append_assoc]

theorem retained_no_marker (page : ListObjectsOutput) :
    ∀ blob ∈ retained page, ¬ "db-backup-".toList <:+: blob.Path := by
  intro blob hb
  simp only [retained, List.mem_map, List.mem_filter, Bool.not_eq_true',
    ← Bool.not_eq_true, contains_iff] at hb
  obtain ⟨obj, ⟨_, hn⟩, rfl⟩ := hb
  exact hn

theorem retained_paths (page : ListObjectsOutput) :
    (retained page).map (fun blob => blob.Path) =
      (page.Contents.map fun obj => obj.Key).filter
        fun key => !strings.Contains key "db-backup-".toList := by
  simp only [retained, List.map_map, List.filter_map]
  rfl

theorem retained_pages_paths (pages : List (ListObjectsOutput × Bool)) :
    (pages.flatMap fun page => retained page.1).map (fun blob => blob.Path) =
      ((pages.flatMap fun page => page.1.Contents).map fun obj => obj.Key).filter
        fun key => !strings.Contains key "db-backup-".toList := by
  induction pages with
  | nil => rfl
  | cons page rest ih =>
    simp only [List.flatMap_cons, List.map_append, List.filter_append, ih, retained_paths]

/-- C8: for every listing that the store completes without error, whatever the number of
pages, and in which the ETag of every retained object carries its two quote characters,
`ListBlobs` returns exactly the concatenation, in page order and in within-page order, of the
objects whose key does not contain `db-backup-`, each as `Path` = key, `Checksum` = ETag
without its first and last character, `Size` = size. No key with the marker is in the result,
and the keys of the result are exactly the listed keys without the marker, in order and with
their multiplicity. -/
theorem ListBlobs_spec (env : Env) (remote : S3)
    (hErr : (env.ListObjectsPages remote.Bucket remote.niceRootPath).2 = none)
    (hTag : ∀ page ∈ (env.ListObjectsPages remote.Bucket remote.niceRootPath).1,
      ∀ obj ∈ page.1.Contents,
        strings.Contains obj.Key "db-backup-".toList = false → 2 ≤ obj.ETag.length) :
    (S3.ListBlobs env remote).1 =
        .ok ((env.ListObjectsPages remote.Bucket remote.niceRootPath).1.flatMap
          fun page => (page.1.Contents.filter
            fun obj => !strings.Contains obj.Key "db-backup-".toList).map
              fun obj => { Path := obj.Key, Checksum := (obj.ETag.drop 1).dropLast,
                           Size := obj.Size }) ∧
      (∀ files, (S3.ListBlobs env remote).1 = .ok files →
        (∀ blob ∈ files, ¬ "db-backup-".toList <:+: blob.Path) ∧
        files.map (fun blob => blob.Path) =
          (((env.ListObjectsPages remote.Bucket remote.niceRootPath).1.flatMap
            fun page => page.1.Contents).map fun obj => obj.Key).filter
              fun key => !strings.Contains key "db-backup-".toList) := by
  have h₁ := listPages_ok _ [] hTag
  have key : (S3.ListBlobs env remote).1 =
      .ok ((env.ListObjectsPages remote.Bucket remote.niceRootPath).1.flatMap
        fun page => retained page.1) := by
    unfold S3.ListBlobs
    rcases hp : listPages [] (env.ListObjectsPages remote.Bucket remote.niceRootPath).1
      with ⟨r, ev⟩
    rw [hp] at h₁
    simp only [List.nil_append] at h₁
    subst h₁
    simp only [hErr]
  refine ⟨key, ?_⟩
  intro files hfiles
  rw [key] at hfiles
  have e := Except.ok.inj hfiles
  subst e
  refine ⟨?_, retained_pages_paths _⟩
  intro blob hb
  obtain ⟨page, _, hmem⟩ := List.mem_flatMap.mp hb
  exact retained_no_marker page.1 blob hmem

theorem ListBlobs_spec_witness :
    (S3.ListBlobs (constEnv (fun _ => []) (.error "unused".toList) (.error "unused".toList)
        demoListing) demoRemote).1 =
      .ok [{ Path := "data/00/aa".toList, Checksum := "e1".toList, Size := 10 },
           { Path := "data/01/bb".toList, Checksum := "e3-2".toList, Size := 30 }] :=
  (ListBlobs_spec
    (constEnv (fun _ => []) (.error "unused".toList) (.error "unused".toList) demoListing)
    demoRemote rfl (by decide)).1.trans (by decide)

end Gb
